import Mathlib

/-!
Shallow embedding of `src/model/model.js` (Chassis.Model): an observable
attribute store (`get` / `has` / `set` / `toJSON`) plus the `fetch` / `parse`
sync lifecycle.  JavaScript values are modelled by `JSVal`; a JavaScript
object is an insertion-ordered association list with unique keys.  Event
publication (`trigger`) is modelled by returning the list of events emitted
during a call, in emission order.
-/

namespace Chassis

/-- JavaScript values as far as the model manipulates them: `null`,
`undefined`, booleans, numbers (modelled as integers; no claim concerns
float behaviour), strings and plain objects (insertion-ordered field
lists). -/
inductive JSVal where
  | null
  | undefined
  | bool (b : Bool)
  | num (n : Int)
  | str (s : String)
  | obj (fields : List (String × JSVal))

/-- A JavaScript object used as an attribute mapping: insertion-ordered
association list; real JS objects have unique keys (`Nodup` on the key
list where a theorem needs it). -/
abbrev AttrMap := List (String × JSVal)

/-- Property read `m[k]` before the `undefined` default: the value at the
first occurrence of `k`, if present. -/
def objLookup : AttrMap → String → Option JSVal
  | [], _ => none
  | kv :: rest, k => if kv.1 = k then some kv.2 else objLookup rest k

/-- Property read `m[k]`: `undefined` when the key is absent. -/
def objGet (m : AttrMap) (k : String) : JSVal :=
  (objLookup m k).getD JSVal.undefined

/-- The JavaScript `k in m` test. -/
def objHasKey (m : AttrMap) (k : String) : Bool :=
  (objLookup m k).isSome

/-- Replace the value at the (unique) occurrence of `k`, keeping its
position. -/
def objReplace : AttrMap → String → JSVal → AttrMap
  | [], _, _ => []
  | kv :: rest, k, v => if kv.1 = k then (k, v) :: rest else kv :: objReplace rest k v

/-- Property write `m[k] = v`: overwrite in place when the key exists,
otherwise append (JS insertion order). -/
def objSet (m : AttrMap) (k : String) (v : JSVal) : AttrMap :=
  if objHasKey m k then objReplace m k v else m ++ [(k, v)]

/-- The JavaScript `delete m[k]`. -/
def objDelete : AttrMap → String → AttrMap
  | [], _ => []
  | kv :: rest, k => if kv.1 = k then objDelete rest k else kv :: objDelete rest k

/-- Modelled from the spec: `Chassis.mixin` is not under `src/`; per §6 it
shallow-merges sources into the target left to right, later sources
winning, realised as a fold of property assignment. -/
def mixin (target src : AttrMap) : AttrMap :=
  src.foldl (fun t kv => objSet t kv.1 kv.2) target

/-- One model instance's own state: `attributes` (current snapshot),
`_previousAttributes` (snapshot taken at the start of the last mutation;
`[]` stands for the pristine never-assigned field), the configured
`idAttribute` key, the mirrored identity field `me[me.idAttribute]`
(`undefined` until mirrored) and the correlation id `cid`. -/
structure ModelState where
  attributes : AttrMap
  previousAttributes : AttrMap
  idAttribute : String
  idField : JSVal
  cid : String

/-- Events published on the instance's notification channel.  `set`
triggers `change` with the instance itself as payload; the manual
`change()` method triggers `change` with no payload; the fetch error
handler triggers `error`. -/
inductive MEvent where
  | change (payload : Option ModelState)
  | error

/-- The options object read by `set`: only `silent` and `unset` are
consulted (truthiness of the corresponding fields). -/
structure SetOpts where
  silent : Bool := false
  unset : Bool := false

/-- The first argument of `set` after the source's normalisation test
(`key === null`, then `typeof key === 'object'`): the null sentinel, a
single key/value pair, or a full mapping. -/
inductive SetArg where
  | nullArg
  | kv (k : String) (v : JSVal)
  | map (attrs : AttrMap)

/-- Whether the first argument is the null sentinel. -/
def SetArg.isNull : SetArg → Bool
  | .nullArg => true
  | _ => false

/-- The `Chassis.$.each` loop body of `set`: for every key of `attrs`, in
insertion order, delete it from the snapshot when `unset` is set, else
write it. -/
def applyAttrs (cur : AttrMap) (attrs : AttrMap) (unset : Bool) : AttrMap :=
  attrs.foldl (fun c kv => if unset then objDelete c kv.1 else objSet c kv.1 kv.2) cur

/-- The model's strict comparison `v === null` used by `has`: true exactly
on the null value (in particular false on `undefined`). -/
def jsStrictEqNull : JSVal → Bool
  | .null => true
  | _ => false

/-- `get(key)`: `this.attributes[key]` (so `undefined` when absent). -/
def Model.get (st : ModelState) (key : String) : JSVal :=
  objGet st.attributes key

/-- `has(key)`: `this.get(key) !== null`, exactly as the source writes it
(strict inequality, so `undefined` compares unequal to `null`). -/
def Model.has (st : ModelState) (key : String) : Bool :=
  !(jsStrictEqNull (Model.get st key))

/-- The body of `set` after normalisation to a mapping: snapshot
`_previousAttributes` (`Chassis.clone`, modelled from the spec §6 as an
independent structural copy, which on pure values is the value itself);
mirror the id attribute when present; run the each-loop; trigger `change`
with the instance as payload unless `silent`. -/
def Model.setAttrs (st : ModelState) (attrs : AttrMap) (opts : SetOpts) :
    ModelState × List MEvent :=
  let st1 := { st with previousAttributes := st.attributes }
  let st2 :=
    if objHasKey attrs st1.idAttribute then
      { st1 with idField := objGet attrs st1.idAttribute }
    else st1
  let st3 := { st2 with attributes := applyAttrs st2.attributes attrs opts.unset }
  if opts.silent then (st3, []) else (st3, [MEvent.change (some st3)])

/-- `set(key, val, opts)`: null guard returns the instance untouched with
no event; a string key is wrapped into a one-entry mapping; an object key
is the mapping itself (its `val` position then carries the options, which
`SetArg.map` callers pass in `opts`). -/
def Model.set (st : ModelState) (arg : SetArg) (opts : SetOpts) :
    ModelState × List MEvent :=
  match arg with
  | .nullArg => (st, [])
  | .kv k v => Model.setAttrs st [(k, v)] opts
  | .map attrs => Model.setAttrs st attrs opts

/-- `toJSON()`: `Chassis.clone(this.attributes)`; the clone (spec §6,
independent structural copy) is the identity on pure values. -/
def Model.toJSON (st : ModelState) : AttrMap :=
  st.attributes

/-- The manual `change()` method: unconditionally trigger `change` with no
payload. -/
def Model.change (st : ModelState) : ModelState × List MEvent :=
  (st, [MEvent.change none])

/-- The transport invokes exactly one of its `success` / `error` callbacks
(spec §6); a fetch call's observable outcome is which one fired and, on
success, the raw response. -/
inductive TransportOutcome where
  | success (resp : JSVal)
  | error

/-- Observable steps of one `fetch` round trip, in order: the raw response
handed to `parse`, the caller's original `success` callback invoked with
no argument, and every event published on the instance. -/
inductive FetchEvent where
  | parseCalled (raw : JSVal)
  | successCalled
  | emitted (e : MEvent)

/-- String coercion of a JavaScript value used as a property key. -/
def jsToKeyString : JSVal → String
  | .null => "null"
  | .undefined => "undefined"
  | .bool true => "true"
  | .bool false => "false"
  | .num n => toString n
  | .str s => s
  | .obj _ => "[object Object]"

/-- Data shadow of the normalised fetch options object, used only on the
degenerate branch where `set(resp, opts)` receives a primitive response:
there the options object itself becomes the stored value.  Its
function-valued fields (`success`, the handlers) are not representable as
data; only the fields `set` could later observe are kept. -/
def SetOpts.asVal (o : SetOpts) : JSVal :=
  .obj [("silent", .bool o.silent), ("unset", .bool o.unset)]

/-- The success handler's tail call `me.set(resp, opts)` with `resp`
already parsed: a null response hits the null guard; an object response
is the mapping and `opts` lands in the options position; any other value
becomes the single key (string-coerced) with the options object as its
value and no options argument (so default options). -/
def Model.fetchApply (st : ModelState) (parsed : JSVal) (o : SetOpts) :
    ModelState × List MEvent :=
  match parsed with
  | .null => Model.set st .nullArg o
  | .obj m => Model.set st (.map m) o
  | other => Model.set st (.kv (jsToKeyString other) (SetOpts.asVal o)) {}

/-- `fetch(opts)`: options are cloned and defaulted (`dataType`, no-op
`success`; only the fields later consulted are carried), a request is
built whose handlers supersede the caller's, and `sync` performs the
transport call.  On error: trigger `error` on the instance.  On success:
`resp = parse(resp, opts)`, then `opts.success.call(me)` (no argument),
then `set(resp, opts)` with the same normalised options.  The overridable
`parse` hook is passed in as a function. -/
def Model.fetch (parse : JSVal → SetOpts → JSVal) (st : ModelState)
    (opts : Option SetOpts) (outcome : TransportOutcome) :
    ModelState × List FetchEvent :=
  let o := opts.getD {}
  match outcome with
  | .error => (st, [FetchEvent.emitted MEvent.error])
  | .success resp =>
    let parsed := parse resp o
    let r := Model.fetchApply st parsed o
    (r.1, FetchEvent.parseCalled resp :: FetchEvent.successCalled ::
      r.2.map FetchEvent.emitted)

/-- Observable steps of construction: the events published by the initial
`set`, then the `init` hook invoked with the original constructor
arguments. -/
inductive CtorEvent where
  | emitted (e : MEvent)
  | initCalled

/-- The state right after `me.attributes = {}` and `me.cid = uniqueId('c')`
in the constructor: empty snapshots, the prototype's `idAttribute` of
`'id'`, no mirrored id yet, and the generated correlation id (the
generator `Chassis.uniqueId` is outside `src/`; per spec §6 it yields a
fresh string, taken here as a parameter). -/
def initialState (cid : String) : ModelState :=
  { attributes := []
    previousAttributes := []
    idAttribute := "id"
    idField := JSVal.undefined
    cid := cid }

/-- The constructor `Model(attributes, opts)`: default missing arguments,
allocate the empty snapshot and the correlation id, merge the type's
defaults under the supplied attributes (`Chassis.mixin({}, defaults or
empty, attrs)`, supplied wins), apply the merged mapping via `set` with
the constructor options, then invoke `init`.  The type's `defaults` (or
its absence) is a parameter, as is the generated `cid`. -/
def Model.new (defaults : Option AttrMap) (attributes : Option AttrMap)
    (opts : Option SetOpts) (cid : String) : ModelState × List CtorEvent :=
  let attrs := attributes.getD []
  let o := opts.getD {}
  let merged := mixin (mixin [] (defaults.getD [])) attrs
  let r := Model.set (initialState cid) (.map merged) o
  (r.1, r.2.map CtorEvent.emitted ++ [CtorEvent.initCalled])

/-! Lemmas about the object primitives. -/

theorem objHasKey_iff_mem (m : AttrMap) (k : String) :
    objHasKey m k = true ↔ k ∈ m.map Prod.fst := by
  induction m with
  | nil => simp [objHasKey, objLookup]
  | cons kv rest ih =>
    by_cases h : kv.1 = k
    · simp [objHasKey, objLookup, h]
    · simp only [objHasKey, objLookup, h, if_false, List.map_cons, List.mem_cons]
      rw [← objHasKey]
      constructor
      · intro hk
        exact Or.inr (ih.mp hk)
      · rintro (hk | hk)
        · exact absurd hk.symm h
        · exact ih.mpr hk

theorem objLookup_eq_none_of_not_hasKey (m : AttrMap) (k : String)
    (h : objHasKey m k = false) : objLookup m k = none := by
  unfold objHasKey at h
  cases hl : objLookup m k with
  | none => rfl
  | some v => rw [hl] at h; simp at h

theorem objLookup_append (a b : AttrMap) (k : String) :
    objLookup (a ++ b) k =
      match objLookup a k with
      | some v => some v
      | none => objLookup b k := by
  induction a with
  | nil => simp [objLookup]
  | cons kv rest ih =>
    by_cases h : kv.1 = k
    · simp [objLookup, h]
    · simpa [objLookup, h] using ih

theorem objHasKey_cons (kv : String × JSVal) (rest : AttrMap) (k : String) :
    objHasKey (kv :: rest) k = if kv.1 = k then true else objHasKey rest k := by
  by_cases h : kv.1 = k <;> simp [objHasKey, objLookup, h]

theorem objGet_cons (kv : String × JSVal) (rest : AttrMap) (k : String) :
    objGet (kv :: rest) k = if kv.1 = k then kv.2 else objGet rest k := by
  by_cases h : kv.1 = k <;> simp [objGet, objLookup, h]

theorem objLookup_objReplace (m : AttrMap) (k : String) (v : JSVal) (k' : String)
    (h : objHasKey m k = true) :
    objLookup (objReplace m k v) k' =
      if k' = k then some v else objLookup m k' := by
  induction m with
  | nil => simp [objHasKey, objLookup] at h
  | cons kv rest ih =>
    by_cases hk : kv.1 = k
    · by_cases hk' : k' = k
      · simp [objReplace, objLookup, hk, hk']
      · have h1 : ¬ k = k' := fun e => hk' e.symm
        have h2 : ¬ kv.1 = k' := by rw [hk]; exact h1
        simp [objReplace, hk, objLookup, hk', h1, h2]
    · have hrest : objHasKey rest k = true := by
        simpa [objHasKey, objLookup, hk] using h
      by_cases hv : kv.1 = k'
      · have : k' ≠ k := fun e => hk (by rw [hv, e])
        simp [objReplace, hk, objLookup, hv, this]
      · simp [objReplace, hk, objLookup, hv, ih hrest]

theorem objLookup_objSet (m : AttrMap) (k : String) (v : JSVal) (k' : String) :
    objLookup (objSet m k v) k' = if k' = k then some v else objLookup m k' := by
  unfold objSet
  by_cases h : objHasKey m k
  · simp [h, objLookup_objReplace m k v k' h]
  · have hnone : objLookup m k = none := objLookup_eq_none_of_not_hasKey m k (by simpa using h)
    simp only [h, Bool.false_eq_true, if_false, objLookup_append]
    by_cases hk' : k' = k
    · subst hk'
      simp [hnone, objLookup]
    · have : ¬ k = k' := fun e => hk' e.symm
      cases hl : objLookup m k' <;> simp [objLookup, hk', this]

theorem objGet_objSet (m : AttrMap) (k : String) (v : JSVal) (k' : String) :
    objGet (objSet m k v) k' = if k' = k then v else objGet m k' := by
  unfold objGet
  rw [objLookup_objSet]
  by_cases h : k' = k <;> simp [h]

theorem objLookup_objDelete_self (m : AttrMap) (k : String) :
    objLookup (objDelete m k) k = none := by
  induction m with
  | nil => simp [objDelete, objLookup]
  | cons kv rest ih =>
    by_cases h : kv.1 = k <;> simp [objDelete, h, objLookup, ih]

theorem objLookup_objDelete_of_none (m : AttrMap) (k1 k : String)
    (h : objLookup m k = none) :
    objLookup (objDelete m k1) k = none := by
  induction m with
  | nil => simpa [objDelete] using h
  | cons kv rest ih =>
    by_cases hk : kv.1 = k
    · simp [objLookup, hk] at h
    · have hrest : objLookup rest k = none := by simpa [objLookup, hk] using h
      by_cases h1 : kv.1 = k1 <;> simp [objDelete, h1, objLookup, hk, ih hrest]

/-! Lemmas about the each-loop and the merge. -/

theorem applyAttrs_nil (cur : AttrMap) (unset : Bool) :
    applyAttrs cur [] unset = cur := rfl

theorem applyAttrs_cons (cur : AttrMap) (kv : String × JSVal) (rest : AttrMap)
    (unset : Bool) :
    applyAttrs cur (kv :: rest) unset =
      applyAttrs (if unset then objDelete cur kv.1 else objSet cur kv.1 kv.2)
        rest unset := rfl

theorem applyAttrs_false_eq_mixin (cur attrs : AttrMap) :
    applyAttrs cur attrs false = mixin cur attrs := by
  induction attrs generalizing cur with
  | nil => rfl
  | cons kv rest ih =>
    rw [applyAttrs_cons]
    simpa using ih (objSet cur kv.1 kv.2)

theorem objLookup_applyAttrs_true_of_none (cur attrs : AttrMap) (k : String)
    (h : objLookup cur k = none) :
    objLookup (applyAttrs cur attrs true) k = none := by
  induction attrs generalizing cur with
  | nil => simpa [applyAttrs_nil] using h
  | cons kv rest ih =>
    rw [applyAttrs_cons]
    simpa using ih (objDelete cur kv.1) (objLookup_objDelete_of_none cur kv.1 k h)

theorem objLookup_applyAttrs_true_of_mem (cur attrs : AttrMap) (k : String)
    (h : k ∈ attrs.map Prod.fst) :
    objLookup (applyAttrs cur attrs true) k = none := by
  induction attrs generalizing cur with
  | nil => simp at h
  | cons kv rest ih =>
    rw [applyAttrs_cons]
    simp only [List.map_cons, List.mem_cons] at h
    rcases h with hk | hk
    · simp only [if_true]
      exact objLookup_applyAttrs_true_of_none (objDelete cur kv.1) rest k
        (hk ▸ objLookup_objDelete_self cur kv.1)
    · simpa using ih (objDelete cur kv.1) hk

theorem objGet_mixin (t s : AttrMap) (k : String)
    (h : (s.map Prod.fst).Nodup) :
    objGet (mixin t s) k = if objHasKey s k then objGet s k else objGet t k := by
  induction s generalizing t with
  | nil => simp [mixin, objHasKey, objLookup]
  | cons kv rest ih =>
    simp only [List.map_cons, List.nodup_cons] at h
    have step : mixin t (kv :: rest) = mixin (objSet t kv.1 kv.2) rest := rfl
    rw [step, ih (objSet t kv.1 kv.2) h.2, objHasKey_cons, objGet_cons]
    by_cases hk : objHasKey rest k
    · have hmem : k ∈ rest.map Prod.fst := (objHasKey_iff_mem rest k).mp hk
      have hne : ¬ kv.1 = k := fun e => h.1 (e ▸ hmem)
      simp [hk, hne]
    · by_cases he : kv.1 = k
      · simp [hk, he, objGet_objSet]
      · have hne' : ¬ k = kv.1 := fun e => he e.symm
        simp [hk, he, objGet_objSet, hne']

theorem mem_keys_of_objLookup (m : AttrMap) (k : String) (v : JSVal)
    (h : objLookup m k = some v) : k ∈ m.map Prod.fst :=
  (objHasKey_iff_mem m k).mp (by simp [objHasKey, h])

theorem objHasKey_append (a b : AttrMap) (k : String) :
    objHasKey (a ++ b) k = (objHasKey a k || objHasKey b k) := by
  unfold objHasKey
  rw [objLookup_append]
  cases objLookup a k <;> simp

theorem keys_objReplace (m : AttrMap) (k : String) (v : JSVal)
    (h : objHasKey m k = true) :
    (objReplace m k v).map Prod.fst = m.map Prod.fst := by
  induction m with
  | nil => rfl
  | cons kv rest ih =>
    by_cases hk : kv.1 = k
    · simp [objReplace, hk]
    · have hrest : objHasKey rest k = true := by
        simpa [objHasKey, objLookup, hk] using h
      simp [objReplace, hk, ih hrest]

theorem keys_objSet (m : AttrMap) (k : String) (v : JSVal) :
    (objSet m k v).map Prod.fst =
      if objHasKey m k then m.map Prod.fst else m.map Prod.fst ++ [k] := by
  unfold objSet
  by_cases h : objHasKey m k <;> simp [h]
  exact keys_objReplace m k v h

theorem nodupKeys_objSet (m : AttrMap) (k : String) (v : JSVal)
    (h : (m.map Prod.fst).Nodup) : ((objSet m k v).map Prod.fst).Nodup := by
  rw [keys_objSet]
  by_cases hk : objHasKey m k
  · simpa [hk] using h
  · have hnm : k ∉ m.map Prod.fst := fun hm => by
      rw [(objHasKey_iff_mem m k).mpr hm] at hk
      exact hk rfl
    simp only [hk, Bool.false_eq_true, if_false]
    rw [List.nodup_append]
    exact ⟨h, List.nodup_singleton k, by
      intro a ha hb
      rw [List.mem_singleton] at hb
      exact hnm (hb ▸ ha)⟩

theorem nodupKeys_mixin (t s : AttrMap) (h : (t.map Prod.fst).Nodup) :
    ((mixin t s).map Prod.fst).Nodup := by
  induction s generalizing t with
  | nil => simpa [mixin] using h
  | cons kv rest ih =>
    have step : mixin t (kv :: rest) = mixin (objSet t kv.1 kv.2) rest := rfl
    rw [step]
    exact ih (objSet t kv.1 kv.2) (nodupKeys_objSet t kv.1 kv.2 h)

theorem mixin_eq_append (t s : AttrMap) (h : (s.map Prod.fst).Nodup)
    (hdisj : ∀ k ∈ s.map Prod.fst, objHasKey t k = false) :
    mixin t s = t ++ s := by
  induction s generalizing t with
  | nil => simp [mixin]
  | cons kv rest ih =>
    simp only [List.map_cons, List.nodup_cons] at h
    have step : mixin t (kv :: rest) = mixin (objSet t kv.1 kv.2) rest := rfl
    have hset : objSet t kv.1 kv.2 = t ++ [(kv.1, kv.2)] := by
      unfold objSet
      rw [hdisj kv.1 (by simp)]
      simp
    have hdisj' : ∀ k ∈ rest.map Prod.fst, objHasKey (t ++ [(kv.1, kv.2)]) k = false := by
      intro k hk
      rw [objHasKey_append]
      have h1 : objHasKey t k = false := hdisj k (by simp [hk])
      have h2 : objHasKey [(kv.1, kv.2)] k = false := by
        have : ¬ kv.1 = k := fun e => h.1 (e ▸ hk)
        simp [objHasKey, objLookup, this]
      rw [h1, h2]
      rfl
    rw [step, hset, ih (t ++ [(kv.1, kv.2)]) h.2 hdisj']
    simp

theorem mixin_nil (s : AttrMap) (h : (s.map Prod.fst).Nodup) :
    mixin [] s = s := by
  rw [mixin_eq_append [] s h (fun k _ => rfl)]
  rfl

/-! Projections of one normalised `set` call. -/

theorem setAttrs_previousAttributes (st : ModelState) (attrs : AttrMap)
    (opts : SetOpts) :
    (Model.setAttrs st attrs opts).1.previousAttributes = st.attributes := by
  unfold Model.setAttrs
  by_cases hid : objHasKey attrs st.idAttribute <;>
    by_cases hs : opts.silent <;> simp [hid, hs]

theorem setAttrs_attributes (st : ModelState) (attrs : AttrMap) (opts : SetOpts) :
    (Model.setAttrs st attrs opts).1.attributes =
      applyAttrs st.attributes attrs opts.unset := by
  unfold Model.setAttrs
  by_cases hid : objHasKey attrs st.idAttribute <;>
    by_cases hs : opts.silent <;> simp [hid, hs]

theorem setAttrs_idField (st : ModelState) (attrs : AttrMap) (opts : SetOpts) :
    (Model.setAttrs st attrs opts).1.idField =
      if objHasKey attrs st.idAttribute then objGet attrs st.idAttribute
      else st.idField := by
  unfold Model.setAttrs
  by_cases hid : objHasKey attrs st.idAttribute <;>
    by_cases hs : opts.silent <;> simp [hid, hs]

theorem setAttrs_idAttribute (st : ModelState) (attrs : AttrMap) (opts : SetOpts) :
    (Model.setAttrs st attrs opts).1.idAttribute = st.idAttribute := by
  unfold Model.setAttrs
  by_cases hid : objHasKey attrs st.idAttribute <;>
    by_cases hs : opts.silent <;> simp [hid, hs]

theorem setAttrs_cid (st : ModelState) (attrs : AttrMap) (opts : SetOpts) :
    (Model.setAttrs st attrs opts).1.cid = st.cid := by
  unfold Model.setAttrs
  by_cases hid : objHasKey attrs st.idAttribute <;>
    by_cases hs : opts.silent <;> simp [hid, hs]

theorem setAttrs_events (st : ModelState) (attrs : AttrMap) (opts : SetOpts) :
    (Model.setAttrs st attrs opts).2 =
      if opts.silent then []
      else [MEvent.change (some (Model.setAttrs st attrs opts).1)] := by
  unfold Model.setAttrs
  by_cases hid : objHasKey attrs st.idAttribute <;>
    by_cases hs : opts.silent <;> simp [hid, hs]

/-- A concrete model state used by witness instantiations: nonempty current
snapshot differing from the stale previous snapshot. -/
def sampleState : ModelState :=
  { attributes := [("t", JSVal.str "x")]
    previousAttributes := [("old", JSVal.null)]
    idAttribute := "id"
    idField := JSVal.undefined
    cid := "c9" }

/-- C1: evaluation of the code at the failing inputs.  On a freshly
constructed model with no attributes, `get` of a never-set key returns the
absent marker (`undefined`), yet `has` returns `true`, because the source
compares with strict `!== null` and `undefined !== null` holds in
JavaScript; the same happens after removal via `set(k, v, {unset: true})`,
while an explicit null does give `false`.  The claim (and the method's own
doc comment) require `has` to be false for never-set and unset keys, so
the code contradicts the claim exactly where the absent marker is
involved. -/
theorem C1_has_is_true_on_absent_keys :
    Model.get (Model.new none none none "c1").1 "title" = JSVal.undefined ∧
    Model.has (Model.new none none none "c1").1 "title" = true ∧
    Model.has
      (Model.set ((Model.set (initialState "c1")
          (SetArg.kv "title" (JSVal.str "v")) {}).1)
        (SetArg.kv "title" (JSVal.str "v")) { unset := true }).1 "title" = true ∧
    Model.has (Model.set (initialState "c1")
        (SetArg.kv "title" JSVal.null) {}).1 "title" = false :=
  ⟨rfl, rfl, rfl, rfl⟩

/-- C2: when the transport invokes the error callback, `fetch` publishes
exactly an `error` notification on the instance and the current attribute
snapshot is unchanged from its value immediately before the call. -/
theorem C2_fetch_error_notifies_and_preserves_attributes
    (parse : JSVal → SetOpts → JSVal) (st : ModelState) (opts : Option SetOpts) :
    (Model.fetch parse st opts TransportOutcome.error).2 =
      [FetchEvent.emitted MEvent.error] ∧
    (Model.fetch parse st opts TransportOutcome.error).1.attributes =
      st.attributes :=
  ⟨rfl, rfl⟩

/-- C3: when the transport invokes the success callback with response `r`
and the parsed result is an attribute mapping, the fetch round trip first
passes `r` through `parse`, then invokes the caller's original `success`
callback with no response argument, then applies the parsed result via
`set` with the same normalised options object; in particular a
`silent: true` fetch publishes no notification at all on success. -/
theorem C3_fetch_success_parses_then_callback_then_set
    (parse : JSVal → SetOpts → JSVal) (st : ModelState) (opts : Option SetOpts)
    (r : JSVal) (m : AttrMap) (h : parse r (opts.getD {}) = JSVal.obj m) :
    Model.fetch parse st opts (TransportOutcome.success r) =
      ((Model.set st (SetArg.map m) (opts.getD {})).1,
        FetchEvent.parseCalled r :: FetchEvent.successCalled ::
          (Model.set st (SetArg.map m) (opts.getD {})).2.map FetchEvent.emitted) ∧
    ((opts.getD {}).silent = true →
      (Model.fetch parse st opts (TransportOutcome.success r)).2 =
        [FetchEvent.parseCalled r, FetchEvent.successCalled]) := by
  have hfetch : Model.fetch parse st opts (TransportOutcome.success r) =
      ((Model.fetchApply st (parse r (opts.getD {})) (opts.getD {})).1,
        FetchEvent.parseCalled r :: FetchEvent.successCalled ::
          (Model.fetchApply st (parse r (opts.getD {})) (opts.getD {})).2.map
            FetchEvent.emitted) := rfl
  have happ : Model.fetchApply st (parse r (opts.getD {})) (opts.getD {}) =
      Model.set st (SetArg.map m) (opts.getD {}) := by
    rw [h]
    rfl
  constructor
  · rw [hfetch, happ]
  · intro hs
    have hev : (Model.set st (SetArg.map m) (opts.getD {})).2 = [] := by
      rw [show Model.set st (SetArg.map m) (opts.getD {}) =
          Model.setAttrs st m (opts.getD {}) from rfl, setAttrs_events, hs]
      simp
    rw [hfetch, happ]
    show FetchEvent.parseCalled r :: FetchEvent.successCalled ::
        (Model.set st (SetArg.map m) (opts.getD {})).2.map FetchEvent.emitted = _
    rw [hev]
    rfl

/-- Witness for C3 at a concrete input: a silent fetch whose parse override
returns the mapping `{title: "b"}`. -/
theorem C3_fetch_success_witness :
    (Model.fetch (fun _ _ => JSVal.obj [("title", JSVal.str "b")])
        (initialState "c1") (some { silent := true })
        (TransportOutcome.success JSVal.null)).2 =
      [FetchEvent.parseCalled JSVal.null, FetchEvent.successCalled] :=
  (C3_fetch_success_parses_then_callback_then_set
      (fun _ _ => JSVal.obj [("title", JSVal.str "b")]) (initialState "c1")
      (some { silent := true }) JSVal.null [("title", JSVal.str "b")] rfl).2 rfl

/-- C4: at the start of every mutation call that passes the null guard
(the guard case is the separately specified no-op of C6), before any key
is written or deleted, the previous snapshot is recomputed as an
independent copy of the pre-call current snapshot — on pure values the
structural copy is the value itself; the statement covers no-op calls
(empty mapping, identical values) and unset-only calls. -/
theorem C4_previous_recomputed_at_mutation_start (st : ModelState)
    (arg : SetArg) (opts : SetOpts) (h : arg.isNull = false) :
    (Model.set st arg opts).1.previousAttributes = st.attributes := by
  cases arg with
  | nullArg => simp [SetArg.isNull] at h
  | kv k v => exact setAttrs_previousAttributes st [(k, v)] opts
  | map attrs => exact setAttrs_previousAttributes st attrs opts

/-- Witness for C4 at a concrete input: an unset-only no-op call on a state
whose stale previous snapshot differs from the current one. -/
theorem C4_previous_recomputed_witness :
    (SetArg.map []).isNull = false ∧
    (Model.set sampleState (SetArg.map []) { unset := true }).1.previousAttributes =
      sampleState.attributes :=
  ⟨rfl, C4_previous_recomputed_at_mutation_start sampleState (SetArg.map [])
    { unset := true } rfl⟩

/-- C5: a mutation call that passes the null guard publishes no `change`
notification when `silent` is set, and otherwise exactly one `change`
notification carrying the instance itself as payload, regardless of how
many keys were touched and with no equality diffing. -/
theorem C5_single_change_notification_unless_silent (st : ModelState)
    (arg : SetArg) (opts : SetOpts) (h : arg.isNull = false) :
    (Model.set st arg opts).2 =
      if opts.silent then []
      else [MEvent.change (some (Model.set st arg opts).1)] := by
  cases arg with
  | nullArg => simp [SetArg.isNull] at h
  | kv k v => exact setAttrs_events st [(k, v)] opts
  | map attrs => exact setAttrs_events st attrs opts

/-- Witness for C5 at a concrete input: rewriting an attribute with its
identical prior value, without `silent`, still publishes exactly one
`change` carrying the instance. -/
theorem C5_single_change_witness :
    (SetArg.map [("t", JSVal.str "x")]).isNull = false ∧
    (Model.set sampleState (SetArg.map [("t", JSVal.str "x")]) {}).2 =
      [MEvent.change (some (Model.set sampleState
        (SetArg.map [("t", JSVal.str "x")]) {}).1)] :=
  ⟨rfl, by
    have h := C5_single_change_notification_unless_silent sampleState
      (SetArg.map [("t", JSVal.str "x")]) {} rfl
    simpa using h⟩

/-- C6: `set` with the null sentinel as first argument is a no-op that
returns the instance unchanged: no attribute written or deleted, no
notification published (and, the embedding being total, no error
raised). -/
theorem C6_set_null_is_silent_noop (st : ModelState) (opts : SetOpts) :
    Model.set st SetArg.nullArg opts = (st, []) := rfl

/-- C7: starting from an empty snapshot, `set(A); set(B)` without unset
leaves the current snapshot extensionally equal to the shallow union of A
and B with B's values overriding A's on common keys. -/
theorem C7_set_then_set_is_overriding_union (st : ModelState) (A B : AttrMap)
    (o1 o2 : SetOpts) (hst : st.attributes = [])
    (hA : (A.map Prod.fst).Nodup) (hB : (B.map Prod.fst).Nodup)
    (h1 : o1.unset = false) (h2 : o2.unset = false) (k : String) :
    Model.get (Model.set (Model.set st (SetArg.map A) o1).1
        (SetArg.map B) o2).1 k =
      if objHasKey B k then objGet B k else objGet A k := by
  have e1 : (Model.set st (SetArg.map A) o1).1.attributes = mixin [] A := by
    rw [show Model.set st (SetArg.map A) o1 = Model.setAttrs st A o1 from rfl,
      setAttrs_attributes, hst, h1, applyAttrs_false_eq_mixin]
  have e2 : (Model.set (Model.set st (SetArg.map A) o1).1
      (SetArg.map B) o2).1.attributes = mixin (mixin [] A) B := by
    rw [show Model.set (Model.set st (SetArg.map A) o1).1 (SetArg.map B) o2 =
        Model.setAttrs (Model.set st (SetArg.map A) o1).1 B o2 from rfl,
      setAttrs_attributes, e1, h2, applyAttrs_false_eq_mixin]
  unfold Model.get
  rw [e2, objGet_mixin (mixin [] A) B k hB]
  by_cases hBk : objHasKey B k
  · simp [hBk]
  · simp only [hBk, Bool.false_eq_true, if_false]
    rw [objGet_mixin [] A k hA]
    by_cases hAk : objHasKey A k
    · simp [hAk]
    · have hnone : objLookup A k = none :=
        objLookup_eq_none_of_not_hasKey A k (by simpa using hAk)
      simp [hAk, objGet, hnone, objLookup]

/-- Witness for C7 at concrete inputs: overlapping mappings where the
second write overrides the first on the common key. -/
theorem C7_overriding_union_witness :
    Model.get (Model.set (Model.set (initialState "c1")
        (SetArg.map [("a", JSVal.num 1), ("b", JSVal.num 2)]) {}).1
        (SetArg.map [("b", JSVal.num 3), ("c", JSVal.num 4)]) {}).1 "b" =
      if objHasKey [("b", JSVal.num 3), ("c", JSVal.num 4)] "b"
      then objGet [("b", JSVal.num 3), ("c", JSVal.num 4)] "b"
      else objGet [("a", JSVal.num 1), ("b", JSVal.num 2)] "b" :=
  C7_set_then_set_is_overriding_union (initialState "c1")
    [("a", JSVal.num 1), ("b", JSVal.num 2)]
    [("b", JSVal.num 3), ("c", JSVal.num 4)] {} {} rfl (by decide) (by decide)
    rfl rfl "b"

/-- C8: construction allocates an empty snapshot and the supplied
correlation id, merges the type's defaults under the constructor-supplied
attributes (supplied wins), applies the merged mapping via `set` with the
constructor options — publishing one `change` before the `init` hook runs
unless suppressed — and the concrete scenario holds: constructing with
`{title: "a"}` over defaults `{title: "x", views: 0}` yields `toJSON()`
equal to `{title: "a", views: 0}`. -/
theorem C8_construction_merges_defaults_then_sets_then_inits
    (defaults attributes : Option AttrMap) (opts : Option SetOpts) (cid : String)
    (hd : ((defaults.getD []).map Prod.fst).Nodup)
    (ha : ((attributes.getD []).map Prod.fst).Nodup)
    (hu : (opts.getD {}).unset = false) :
    (Model.new defaults attributes opts cid).1.cid = cid ∧
    (Model.new defaults attributes opts cid).2 =
      (if (opts.getD {}).silent then []
       else [CtorEvent.emitted (MEvent.change
          (some (Model.new defaults attributes opts cid).1))]) ++
        [CtorEvent.initCalled] ∧
    (∀ k, Model.get (Model.new defaults attributes opts cid).1 k =
      if objHasKey (attributes.getD []) k then objGet (attributes.getD []) k
      else objGet (defaults.getD []) k) ∧
    Model.toJSON (Model.new (some [("title", JSVal.str "x"), ("views", JSVal.num 0)])
        (some [("title", JSVal.str "a")]) none "c1").1 =
      [("title", JSVal.str "a"), ("views", JSVal.num 0)] := by
  have hnew : Model.new defaults attributes opts cid =
      ((Model.setAttrs (initialState cid)
          (mixin (mixin [] (defaults.getD [])) (attributes.getD []))
          (opts.getD {})).1,
        (Model.setAttrs (initialState cid)
          (mixin (mixin [] (defaults.getD [])) (attributes.getD []))
          (opts.getD {})).2.map CtorEvent.emitted ++ [CtorEvent.initCalled]) := rfl
  refine ⟨?_, ?_, ?_, rfl⟩
  · rw [hnew]
    show (Model.setAttrs (initialState cid) _ _).1.cid = cid
    rw [setAttrs_cid]
    rfl
  · rw [hnew]
    show (Model.setAttrs (initialState cid) _ _).2.map CtorEvent.emitted ++
        [CtorEvent.initCalled] = _
    rw [setAttrs_events]
    by_cases hs : (opts.getD {}).silent <;> simp [hs]
  · intro k
    have hmerged : mixin (mixin [] (defaults.getD [])) (attributes.getD []) =
        mixin (defaults.getD []) (attributes.getD []) := by
      rw [mixin_nil _ hd]
    have hndm : ((mixin (defaults.getD []) (attributes.getD [])).map
        Prod.fst).Nodup := nodupKeys_mixin _ _ hd
    rw [hnew]
    show Model.get (Model.setAttrs (initialState cid) _ _).1 k = _
    unfold Model.get
    rw [setAttrs_attributes, hu, applyAttrs_false_eq_mixin]
    show objGet (mixin []
        (mixin (mixin [] (defaults.getD [])) (attributes.getD []))) k = _
    rw [hmerged, mixin_nil _ hndm, objGet_mixin _ _ k ha]

/-- Witness for C8 at the concrete scenario input: the correlation id is
the one supplied and the default `views` survives under the overriding
supplied `title`. -/
theorem C8_construction_witness :
    (Model.new (some [("title", JSVal.str "x"), ("views", JSVal.num 0)])
        (some [("title", JSVal.str "a")]) none "c1").1.cid = "c1" ∧
    Model.toJSON (Model.new (some [("title", JSVal.str "x"), ("views", JSVal.num 0)])
        (some [("title", JSVal.str "a")]) none "c1").1 =
      [("title", JSVal.str "a"), ("views", JSVal.num 0)] :=
  ⟨(C8_construction_merges_defaults_then_sets_then_inits
      (some [("title", JSVal.str "x"), ("views", JSVal.num 0)])
      (some [("title", JSVal.str "a")]) none "c1" (by decide) (by decide) rfl).1,
    (C8_construction_merges_defaults_then_sets_then_inits
      (some [("title", JSVal.str "x"), ("views", JSVal.num 0)])
      (some [("title", JSVal.str "a")]) none "c1" (by decide) (by decide) rfl).2.2.2⟩

/-- C9: a non-unset `set` whose mapping contains the configured
id-attribute key with value `v` leaves both the mirrored identity field
and `get(idAttribute)` equal to `v`. -/
theorem C9_id_attribute_mirrored_on_set (st : ModelState) (attrs : AttrMap)
    (opts : SetOpts) (v : JSVal) (hu : opts.unset = false)
    (hv : objLookup attrs st.idAttribute = some v)
    (hnd : (attrs.map Prod.fst).Nodup) :
    (Model.set st (SetArg.map attrs) opts).1.idField = v ∧
    Model.get (Model.set st (SetArg.map attrs) opts).1 st.idAttribute = v := by
  have hset : Model.set st (SetArg.map attrs) opts =
      Model.setAttrs st attrs opts := rfl
  have hhk : objHasKey attrs st.idAttribute = true := by simp [objHasKey, hv]
  constructor
  · rw [hset, setAttrs_idField]
    simp [hhk, objGet, hv]
  · rw [hset]
    unfold Model.get
    rw [setAttrs_attributes, hu, applyAttrs_false_eq_mixin,
      objGet_mixin st.attributes attrs st.idAttribute hnd]
    simp [hhk, objGet, hv]

/-- Witness for C9 at a concrete input: setting `{id: 7, t: "a"}` mirrors
7 onto the identity field and stores it under `id`. -/
theorem C9_id_attribute_mirrored_witness :
    (Model.set (initialState "c1")
        (SetArg.map [("id", JSVal.num 7), ("t", JSVal.str "a")]) {}).1.idField =
      JSVal.num 7 ∧
    Model.get (Model.set (initialState "c1")
        (SetArg.map [("id", JSVal.num 7), ("t", JSVal.str "a")]) {}).1
      (initialState "c1").idAttribute = JSVal.num 7 :=
  C9_id_attribute_mirrored_on_set (initialState "c1")
    [("id", JSVal.num 7), ("t", JSVal.str "a")] {} (JSVal.num 7) rfl rfl
    (by decide)

/-- C10: an unset `set` whose mapping contains the configured id-attribute
key with value `v` still overwrites the mirrored identity field with `v`,
even though the key itself is deleted from the snapshot, so afterwards the
identity field is `v` while `get(idAttribute)` returns the absent
marker. -/
theorem C10_unset_still_overwrites_id_field (st : ModelState) (attrs : AttrMap)
    (opts : SetOpts) (v : JSVal) (hu : opts.unset = true)
    (hv : objLookup attrs st.idAttribute = some v) :
    (Model.set st (SetArg.map attrs) opts).1.idField = v ∧
    Model.get (Model.set st (SetArg.map attrs) opts).1 st.idAttribute =
      JSVal.undefined := by
  have hset : Model.set st (SetArg.map attrs) opts =
      Model.setAttrs st attrs opts := rfl
  have hhk : objHasKey attrs st.idAttribute = true := by simp [objHasKey, hv]
  constructor
  · rw [hset, setAttrs_idField]
    simp [hhk, objGet, hv]
  · rw [hset]
    unfold Model.get
    rw [setAttrs_attributes, hu]
    unfold objGet
    rw [objLookup_applyAttrs_true_of_mem st.attributes attrs st.idAttribute
      (mem_keys_of_objLookup attrs st.idAttribute v hv)]
    rfl

/-- Witness for C10 at a concrete input: unsetting `{id: 7}` on a state
that held an id leaves the mirrored field at 7 with the attribute gone. -/
theorem C10_unset_id_witness :
    (Model.set sampleState (SetArg.map [("id", JSVal.num 7)])
        { unset := true }).1.idField = JSVal.num 7 ∧
    Model.get (Model.set sampleState (SetArg.map [("id", JSVal.num 7)])
        { unset := true }).1 sampleState.idAttribute = JSVal.undefined :=
  C10_unset_still_overwrites_id_field sampleState [("id", JSVal.num 7)]
    { unset := true } (JSVal.num 7) rfl rfl

end Chassis
